import Mathlib

/-!
Verification development for the msgprpc repository: a shallow embedding of
the client (`src/client.go`) and the server dispatch loop
(`src/unnamed/part_003`), with theorems settling the specification claims.

Socket I/O is modelled by an oracle (`NetEnv`) that supplies, per operation
index, the outcome each primitive encode/decode/dial would have produced; the
client state threads the indices.  Values travelling in `args` are opaque to
the protocol, modelled by a small inductive `Val`.
-/

namespace Msgprpc

/-- Opaque application-level values carried in the `args` field of a frame. -/
inductive Val
  | vint (n : Int)
  | vstr (s : String)
  deriving DecidableEq

instance {ε α : Type} [DecidableEq ε] [DecidableEq α] : DecidableEq (Except ε α) := fun a b =>
  match a, b with
  | .ok x, .ok y =>
    if h : x = y then .isTrue (by rw [h]) else .isFalse (by intro hc; cases hc; exact h rfl)
  | .error x, .error y =>
    if h : x = y then .isTrue (by rw [h]) else .isFalse (by intro hc; cases hc; exact h rfl)
  | .ok _, .error _ => .isFalse (by intro hc; cases hc)
  | .error _, .ok _ => .isFalse (by intro hc; cases hc)

/-- Go error values relevant to the client's retry classification:
`errRetry` (the package-level sentinel returned by `Client.call` when
`c.conn == nil`), network errors (values implementing `net.Error`),
`io.EOF`, plain `errors.New` string errors (application-level errors and
handshake rejections), and `context` cancellation errors. -/
inductive GoError
  | errRetry
  | netErr (s : String)
  | eof
  | strErr (s : String)
  | ctxCanceled
  deriving DecidableEq

/-- `shouldRetry` from src/client.go lines 159-173: nil is not retryable,
the `errRetry` sentinel is, any `net.Error` is, everything else is not. -/
def shouldRetryErr : GoError → Bool
  | .errRetry => true
  | .netErr _ => true
  | _ => false

/-- `shouldRetry` applied to an optional error (`nil` in Go is `none`). -/
def shouldRetry : Option GoError → Bool
  | none => false
  | some e => shouldRetryErr e

/-- Protocol constant `Version = 0.4` (a Go float64; modelled exactly in ℚ). -/
def Version : ℚ := mkRat 4 10

/-- Protocol constant `MinVersion = 0.3`. -/
def MinVersion : ℚ := mkRat 3 10

def ErrClientVersionTooLow : String := "client version too low"
def ErrInvalidKey : String := "invalid key"
def ErrNotFound : String := "endpoint not found"

/-- The `handshake` frame: client's first message on a new connection. -/
structure handshake where
  Version : ℚ
  Flags : Nat
  AuthKey : String
  deriving DecidableEq

/-- The `handshakeResponse` frame: server's reply to the handshake. -/
structure handshakeResponse where
  Version : ℚ
  Error : String
  deriving DecidableEq

/-- The `call` frame, used for both requests and responses. -/
structure call where
  Endpoint : String
  Args : List Val
  Error : String
  deriving DecidableEq

/-- `errTooLow = &handshakeResponse{Version, ErrClientVersionTooLow}`. -/
def errTooLow : handshakeResponse := ⟨Version, ErrClientVersionTooLow⟩

/-- `errInvalidKey = &handshakeResponse{Version, ErrInvalidKey}`. -/
def errInvalidKeyResp : handshakeResponse := ⟨Version, ErrInvalidKey⟩

/-- `errNotFound = &call{Error: ErrNotFound}`. -/
def errNotFound : call := ⟨"", [], ErrNotFound⟩

/-- `okHandshake = &handshakeResponse{Version: Version}`. -/
def okHandshake : handshakeResponse := ⟨Version, ""⟩

/-! ## Client (src/client.go) -/

/-- Oracle describing what each primitive network operation would produce.
Indexed by per-kind counters held in `ClientState`: `dial n` is the result
of the n-th dial (a fresh connection id on success), `hsEncode n`/`hsDecode n`
the handshake exchange of the n-th reinit that reaches it, and
`callEncode n`/`callDecode n` the request/response exchange of the n-th call
attempt that reaches the wire. -/
structure NetEnv where
  dial : Nat → Except GoError Nat
  hsEncode : Nat → Option GoError
  hsDecode : Nat → Except GoError handshakeResponse
  callEncode : Nat → Option GoError
  callDecode : Nat → Except GoError call

/-- The mutable fields of `Client` that the claims concern: the current
connection (`nil` or a connection id) plus the oracle indices.  The encoder
and decoder are bound to the connection and carry no separate state here. -/
structure ClientState where
  conn : Option Nat
  dialCount : Nat
  hsCount : Nat
  callCount : Nat
  deriving DecidableEq

/-- Observable events of a client execution: each invocation of `Client.call`
(one request attempt) and each invocation of `Client.reinit`. -/
inductive Ev
  | attempt (ep : String) (args : List Val) (res : Except GoError (List Val))
  | reinitEv (res : Option GoError)
  deriving DecidableEq

/-- Result of `Client.reinit`: updated state, returned error, event trace. -/
structure ReinitRes where
  st : ClientState
  err : Option GoError
  tr : List Ev

/-- `Client.reinit` (src/client.go lines 35-82).  Closes any existing socket
(no state field changes), dials, and on dial success immediately installs the
new connection (`c.conn = conn`), resets the decoder and makes a new encoder,
then sends `handshake{Version: Version}` and decodes a `handshakeResponse`,
failing on a non-empty response error.  TLS scheme selection only affects
which transport dials; the dial oracle covers both.  Note the installation of
the connection happens before the handshake and is not undone on failure. -/
def Client.reinit (env : NetEnv) (c : ClientState) : ReinitRes :=
  match env.dial c.dialCount with
  | .error e => ⟨{ c with dialCount := c.dialCount + 1 }, some e, [.reinitEv (some e)]⟩
  | .ok cid =>
    let c1 : ClientState :=
      { c with conn := some cid, dialCount := c.dialCount + 1 }
    match env.hsEncode c.hsCount with
    | some e => ⟨{ c1 with hsCount := c.hsCount + 1 }, some e, [.reinitEv (some e)]⟩
    | none =>
      match env.hsDecode c.hsCount with
      | .error e => ⟨{ c1 with hsCount := c.hsCount + 1 }, some e, [.reinitEv (some e)]⟩
      | .ok hr =>
        let c2 : ClientState := { c1 with hsCount := c.hsCount + 1 }
        if hr.Error ≠ "" then
          ⟨c2, some (.strErr hr.Error), [.reinitEv (some (.strErr hr.Error))]⟩
        else
          ⟨c2, none, [.reinitEv none]⟩

/-- Result of one `Client.call` or of the whole `Client.Call` body. -/
structure CallRes where
  st : ClientState
  res : Except GoError (List Val)
  tr : List Ev

/-- `Client.call` (src/client.go lines 138-157): returns `errRetry` when no
connection is installed; otherwise encodes `&call{endpoint, args, ""}`,
decodes the response frame, and fails with `errors.New(cc.Error)` when the
response carries a non-empty error, else returns `cc.Args`. -/
def Client.call (env : NetEnv) (c : ClientState) (ep : String) (args : List Val) :
    CallRes :=
  match c.conn with
  | none => ⟨c, .error .errRetry, [.attempt ep args (.error .errRetry)]⟩
  | some _ =>
    match env.callEncode c.callCount with
    | some e =>
      ⟨{ c with callCount := c.callCount + 1 }, .error e, [.attempt ep args (.error e)]⟩
    | none =>
      match env.callDecode c.callCount with
      | .error e =>
        ⟨{ c with callCount := c.callCount + 1 }, .error e, [.attempt ep args (.error e)]⟩
      | .ok cc =>
        let c1 : ClientState := { c with callCount := c.callCount + 1 }
        if cc.Error ≠ "" then
          ⟨c1, .error (.strErr cc.Error), [.attempt ep args (.error (.strErr cc.Error))]⟩
        else
          ⟨c1, .ok cc.Args, [.attempt ep args (.ok cc.Args)]⟩

/-- The error component of a call result (`err` in Go, `nil` on success). -/
def errOf : Except GoError (List Val) → Option GoError
  | .ok _ => none
  | .error e => some e

/-- The result slice of a call result (`out` in Go, `nil` on error). -/
def outOf : Except GoError (List Val) → List Val
  | .ok v => v
  | .error _ => []

/-- The body of the goroutine spawned by `Client.Call` (src/client.go lines
86-107), which runs under the client mutex: one `Client.call` attempt; if its
error is retryable, one `Client.reinit`, and on reinit success one further
`Client.call`.  The cancellation `select` is outside this sequential body. -/
def Client.CallBody (env : NetEnv) (c : ClientState) (ep : String) (args : List Val) :
    CallRes :=
  let a1 := Client.call env c ep args
  if shouldRetry (errOf a1.res) then
    let r := Client.reinit env a1.st
    match r.err with
    | some e => ⟨r.st, .error e, a1.tr ++ r.tr⟩
    | none =>
      let a2 := Client.call env r.st ep args
      ⟨a2.st, a2.res, a1.tr ++ r.tr ++ a2.tr⟩
  else a1

/-- `Client.Close` (src/client.go lines 128-136): closes and clears the
connection when one is present (the socket close result is modelled as
succeeding), and is a no-op otherwise. -/
def Client.Close (c : ClientState) : ClientState × Option GoError :=
  match c.conn with
  | some _ => ({ c with conn := none }, none)
  | none => (c, none)

/-- Result of a batch: final state, `out` slice, `errs` slice, event trace. -/
structure BatchRes where
  st : ClientState
  outs : List (List Val)
  errs : List (Option GoError)
  tr : List Ev

/-- The loop of the goroutine inside `Client.BatchCall` (src/client.go lines
113-118): one `Client.Call` per argument set, in order, recording each
outcome at its index. -/
def Client.batchLoop (env : NetEnv) (c : ClientState) (ep : String) :
    List (List Val) → BatchRes
  | [] => ⟨c, [], [], []⟩
  | a :: rest =>
    let r := Client.CallBody env c ep a
    let b := Client.batchLoop env r.st ep rest
    ⟨b.st, outOf r.res :: b.outs, errOf r.res :: b.errs, r.tr ++ b.tr⟩

/-- `Client.BatchCall` (src/client.go lines 109-126).  `cancelAt = some k`
models the outer context firing after exactly `k` inner calls have completed
while more remain: the `select` then returns `(nil, []error{ctx.Err()})` and
the remaining calls are never delivered; `cancelAt = none` (or a fire point
past the end) models the `done` branch, returning both length-n slices. -/
def Client.BatchCall (env : NetEnv) (c : ClientState) (ep : String)
    (allArgs : List (List Val)) (cancelAt : Option Nat) :
    List (List Val) × List (Option GoError) × List Ev :=
  match cancelAt with
  | some k =>
    if k < allArgs.length then
      ([], [some .ctxCanceled], (Client.batchLoop env c ep (allArgs.take k)).tr)
    else
      let b := Client.batchLoop env c ep allArgs
      (b.outs, b.errs, b.tr)
  | none =>
    let b := Client.batchLoop env c ep allArgs
    (b.outs, b.errs, b.tr)

/-! ## Server (src/unnamed/part_003) -/

/-- A registered handler: `func(ctx, args...) ([]interface{}, error)`.  The
context exposure (connection/encoder/decoder via `srvCtx`) does not affect the
dispatch behaviour the claims concern, so a handler is a function from the
argument list to a result list and an optional error message. -/
def Handler := List Val → List Val × Option String

/-- The `Server` fields the dispatch claims concern: the endpoint map `m`,
the optional `AuthFn` predicate, the optional `NotFoundHandler` fallback, and
whether the server context is already cancelled (`s.ctx.Err() != nil`). -/
structure Server where
  m : String → Option Handler
  AuthFn : Option (String → Bool)
  NotFoundHandler : Option (String → Handler)
  ctxDone : Bool

/-- The handler selection of `Server.handle` lines 195-202: the registered
handler, or a wrapper around `NotFoundHandler` when one is configured. -/
def Server.effectiveHandler (s : Server) (ep : String) : Option Handler :=
  match s.m ep with
  | some h => some h
  | none =>
    match s.NotFoundHandler with
    | some nf => some (nf ep)
    | none => none

/-- Building one response frame from a request frame `c` and its handler
(lines 210-216): `if err != nil { c.Error = err.Error() }` followed by
`c.Endpoint, c.Args = "", resp`.  On handler success the frame keeps the
decoded request's `Error` field unchanged. -/
def serveReq (h : Handler) (c : call) : call :=
  let r := h c.Args
  { Endpoint := ""
    Args := r.1
    Error :=
      match r.2 with
      | some e => e
      | none => c.Error }

/-- The main dispatch loop of `Server.handle` (lines 182-225) over the list
of successfully decoded request frames; the list ends where the peer's stream
does (decode failure or EOF ends the loop).  Each iteration: check the
shutdown signal, select a handler (registered, else fallback), and either
answer the request, or send `errNotFound` and break when no handler exists.
Server-side encode I/O failures (which also break the loop) are outside the
model; no claim depends on them. -/
def Server.handleLoop (s : Server) : List call → List call
  | [] => []
  | c :: rest =>
    if s.ctxDone then []
    else
      match s.effectiveHandler c.Endpoint with
      | none => [errNotFound]
      | some h => serveReq h c :: s.handleLoop rest

/-- Outcome of one `Server.handle` invocation: the handshake-phase response
frame sent (if any), the response frames sent from the main loop, whether the
main loop was entered, and whether the connection ends closed (`defer
conn.Close()` makes this unconditionally true). -/
structure HandleResult where
  hsResp : Option handshakeResponse
  responses : List call
  enteredLoop : Bool
  connClosed : Bool

/-- `Server.handle` (lines 140-226): decode the handshake (failure: log and
return), reject a version below `MinVersion` with `errTooLow`, reject a key
the configured `AuthFn` refuses with `errInvalidKey`, otherwise answer
`okHandshake` and run the main loop.  The handshake deadline and the
`okHandshake` encode-failure return are I/O-level details outside the model. -/
def Server.handle (s : Server) (hsIn : Except GoError handshake)
    (reqs : List call) : HandleResult :=
  match hsIn with
  | .error _ => ⟨none, [], false, true⟩
  | .ok hs =>
    if hs.Version < MinVersion then
      ⟨some errTooLow, [], false, true⟩
    else if (match s.AuthFn with
             | some f => !f hs.AuthKey
             | none => false) then
      ⟨some errInvalidKeyResp, [], false, true⟩
    else
      ⟨some okHandshake, s.handleLoop reqs, true, true⟩

/-! ## Concrete sample servers and environments used by witnesses -/

/-- A handler echoing its arguments, like the test handler for non-zero args. -/
def echoHandler : Handler := fun args => (args, none)

/-- A handler that deterministically returns the error message `err`. -/
def failHandler : Handler := fun _ => ([], some "err")

/-- A server with an echo endpoint and a failing endpoint, no auth, no
fallback. -/
def demoServer : Server where
  m := fun ep =>
    if ep = "echo" then some echoHandler
    else if ep = "fail" then some failHandler
    else none
  AuthFn := none
  NotFoundHandler := none
  ctxDone := false

/-- The auth predicate accepting exactly the key `secret`. -/
def authKeyCheck : String → Bool := fun k => k = "secret"

/-- `demoServer` with the `authKeyCheck` authentication predicate. -/
def authServer : Server where
  m := demoServer.m
  AuthFn := some authKeyCheck
  NotFoundHandler := none
  ctxDone := false

/-- Number of request attempts (`Client.call` invocations) in a trace. -/
def countAttempts : List Ev → Nat
  | [] => 0
  | .attempt _ _ _ :: t => countAttempts t + 1
  | .reinitEv _ :: t => countAttempts t

/-- A client state holding connection 1 with all oracle indices at zero. -/
def connectedClient : ClientState := ⟨some 1, 0, 0, 0⟩

/-- A client state with no connection and all oracle indices at zero. -/
def freshClient : ClientState := ⟨none, 0, 0, 0⟩

/-- Network oracle for the C1 witness: every request attempt fails with a
network error, redialing and the handshake succeed. -/
def envRetryTwice : NetEnv where
  dial := fun _ => .ok 7
  hsEncode := fun _ => none
  hsDecode := fun _ => .ok ⟨Version, ""⟩
  callEncode := fun _ => none
  callDecode := fun _ => .error (.netErr "connection reset")

/-- Network oracle for the C3 counterexample: dialing yields connection 7,
the handshake encode succeeds, and decoding the handshake response fails with
end-of-stream. -/
def envHsFail : NetEnv where
  dial := fun _ => .ok 7
  hsEncode := fun _ => none
  hsDecode := fun _ => .error .eof
  callEncode := fun _ => none
  callDecode := fun _ => .error .eof

/-- Network oracle for the C3 counterexample's second part: the handshake
response reports server version 1 — above the client's 0.4, i.e. a server
requiring a higher client version — with an empty error field. -/
def envVerHigh : NetEnv where
  dial := fun _ => .ok 7
  hsEncode := fun _ => none
  hsDecode := fun _ => .ok ⟨mkRat 1 1, ""⟩
  callEncode := fun _ => none
  callDecode := fun _ => .error .eof

/-- Network oracle for the C4 witness: the response frame always carries the
application error `err`. -/
def envAppErr : NetEnv where
  dial := fun _ => .ok 7
  hsEncode := fun _ => none
  hsDecode := fun _ => .ok ⟨Version, ""⟩
  callEncode := fun _ => none
  callDecode := fun _ => .ok ⟨"", [], "err"⟩

/-- Network oracle for the C10 witness: everything succeeds; the response
carries the single value 5. -/
def envRecover : NetEnv where
  dial := fun _ => .ok 9
  hsEncode := fun _ => none
  hsDecode := fun _ => .ok ⟨Version, ""⟩
  callEncode := fun _ => none
  callDecode := fun _ => .ok ⟨"", [Val.vint 5], ""⟩

/-- Network oracle for the C9 witness: the response to request-exchange 1
carries the application error `err`, the others carry the single value n+1. -/
def envBatch : NetEnv where
  dial := fun _ => .ok 7
  hsEncode := fun _ => none
  hsDecode := fun _ => .ok ⟨Version, ""⟩
  callEncode := fun _ => none
  callDecode := fun n =>
    if n = 1 then .ok ⟨"", [], "err"⟩
    else .ok ⟨"", [Val.vint (Int.ofNat n + 1)], ""⟩

/-! ## Theorems for the server claims -/

/-- C6: every incoming connection whose handshake carries a version strictly
below the server's minimum supported version gets the version-too-low
`handshakeResponse` and is closed without entering the main dispatch loop, so
no call on that connection is ever answered. -/
theorem handshake_version_gate (s : Server) (hs : handshake) (reqs : List call)
    (h : hs.Version < MinVersion) :
    Server.handle s (.ok hs) reqs = ⟨some errTooLow, [], false, true⟩ := by
  simp [Server.handle, h]

/-- Witness for C6 at a concrete input: version 0.2 against minimum 0.3. -/
theorem handshake_version_gate_witness :
    (mkRat 2 10 : ℚ) < MinVersion ∧
    Server.handle demoServer (.ok ⟨mkRat 2 10, 0, ""⟩) [⟨"echo", [], ""⟩]
      = ⟨some errTooLow, [], false, true⟩ :=
  ⟨by decide,
   handshake_version_gate demoServer ⟨mkRat 2 10, 0, ""⟩ [⟨"echo", [], ""⟩] (by decide)⟩

/-- C7: with an authentication predicate configured and the version gate
passed, a rejected key gets the invalid-key `handshakeResponse` and never
reaches the dispatch loop, while an accepted key gets the success
`handshakeResponse` and enters the loop. -/
theorem auth_gate (s : Server) (f : String → Bool) (hs : handshake)
    (reqs : List call) (hf : s.AuthFn = some f) (hv : ¬ hs.Version < MinVersion) :
    (f hs.AuthKey = false →
      Server.handle s (.ok hs) reqs = ⟨some errInvalidKeyResp, [], false, true⟩) ∧
    (f hs.AuthKey = true →
      Server.handle s (.ok hs) reqs
        = ⟨some okHandshake, s.handleLoop reqs, true, true⟩) := by
  constructor <;> intro hk <;> simp [Server.handle, hv, hf, hk]

/-- Witness for C7 at concrete inputs: the key `wrong` is rejected and the
key `secret` is accepted by `authServer`. -/
theorem auth_gate_witness :
    authServer.AuthFn = some authKeyCheck ∧
    ¬ (Version < MinVersion) ∧
    authKeyCheck "wrong" = false ∧
    authKeyCheck "secret" = true ∧
    Server.handle authServer (.ok ⟨Version, 0, "wrong"⟩) [⟨"echo", [], ""⟩]
      = ⟨some errInvalidKeyResp, [], false, true⟩ ∧
    Server.handle authServer (.ok ⟨Version, 0, "secret"⟩) [⟨"echo", [], ""⟩]
      = ⟨some okHandshake, authServer.handleLoop [⟨"echo", [], ""⟩], true, true⟩ := by
  refine ⟨rfl, by decide, by decide, by decide, ?_, ?_⟩
  · exact (auth_gate authServer authKeyCheck ⟨Version, 0, "wrong"⟩ [⟨"echo", [], ""⟩]
      rfl (by decide)).1 (by decide)
  · exact (auth_gate authServer authKeyCheck ⟨Version, 0, "secret"⟩ [⟨"echo", [], ""⟩]
      rfl (by decide)).2 (by decide)

/-- C8 counterexample: the response-building code reuses the decoded request
frame in place, so when the handler returns no error the response keeps the
request's `Error` field instead of being empty.  A request for the echo
endpoint arriving with `Error = "boo"` is answered, the handler returns no
error, yet the encoded response carries `Error = "boo"`, refuting the claim
that the response's error field is empty whenever the handler returned no
error. -/
theorem response_error_leak_counterexample :
    (echoHandler [Val.vint 1]).2 = none ∧
    (Server.handle demoServer (.ok ⟨Version, 0, ""⟩)
        [⟨"echo", [Val.vint 1], "boo"⟩]).responses
      = [⟨"", [Val.vint 1], "boo"⟩] ∧
    ("boo" : String) ≠ "" :=
  ⟨rfl, by decide, by decide⟩

/-- C8 amended: for every request the server answers via a registered (or
fallback) handler whose decoded frame carries an empty error field — as every
frame produced by this client does — the response has its endpoint cleared,
its args equal to the handler's result sequence, and its error field empty
when the handler returned no error and equal to the handler's error message
otherwise.  (A request frame arriving with a non-empty error field leaks that
field into a successful response, as the counterexample shows.) -/
theorem response_shape (s : Server) (h : Handler) (c : call) (rest : List call)
    (hctx : s.ctxDone = false) (hh : s.effectiveHandler c.Endpoint = some h)
    (hc : c.Error = "") :
    s.handleLoop (c :: rest) = serveReq h c :: s.handleLoop rest ∧
    (serveReq h c).Endpoint = "" ∧
    (serveReq h c).Args = (h c.Args).1 ∧
    (serveReq h c).Error = (h c.Args).2.getD "" := by
  refine ⟨by simp [Server.handleLoop, hctx, hh], rfl, rfl, ?_⟩
  show (match (h c.Args).2 with | some e => e | none => c.Error) = (h c.Args).2.getD ""
  cases hres : (h c.Args).2 with
  | some e => rfl
  | none => simpa using hc

/-- Witness for C8 (amended) at a concrete input: a request for the failing
endpoint is answered by one frame whose error is the handler's message. -/
theorem response_shape_witness :
    demoServer.ctxDone = false ∧
    demoServer.effectiveHandler "fail" = some failHandler ∧
    demoServer.handleLoop [⟨"fail", [Val.vint 1], ""⟩]
      = serveReq failHandler ⟨"fail", [Val.vint 1], ""⟩ :: demoServer.handleLoop [] ∧
    (serveReq failHandler ⟨"fail", [Val.vint 1], ""⟩).Error = "err" := by
  have h := response_shape demoServer failHandler ⟨"fail", [Val.vint 1], ""⟩ [] rfl rfl rfl
  exact ⟨rfl, rfl, h.1, rfl⟩

/-- Helper for C5: with the shutdown signal clear, when every frame in `pre`
has an effective handler and `bad` has none, the dispatch loop answers all of
`pre`, answers `bad` with `errNotFound`, and exits without touching `post`. -/
theorem handleLoop_not_found (s : Server) (pre : List call) (bad : call)
    (post : List call) (hctx : s.ctxDone = false)
    (hpre : ∀ c ∈ pre, (s.effectiveHandler c.Endpoint).isSome)
    (hbad : s.effectiveHandler bad.Endpoint = none) :
    ∃ ans, s.handleLoop (pre ++ bad :: post) = ans ++ [errNotFound] ∧
      ans.length = pre.length := by
  induction pre with
  | nil =>
    refine ⟨[], ?_, rfl⟩
    simp [Server.handleLoop, hctx, hbad]
  | cons c pre ih =>
    obtain ⟨h, hh⟩ := Option.isSome_iff_exists.mp (hpre c (List.mem_cons_self c pre))
    obtain ⟨ans, hans, hlen⟩ := ih (fun d hd => hpre d (List.mem_cons_of_mem c hd))
    refine ⟨serveReq h c :: ans, ?_, by simpa using hlen⟩
    simpa [Server.handleLoop, hctx, hh] using hans

/-- C5: for a decoded request naming an endpoint with no registered handler
and no fallback configured, the server answers with the not-found error frame
and terminates the connection: the loop emits exactly one response per
preceding handled request plus the not-found frame, the frames after it are
never answered, and the socket ends closed — so subsequent calls on this
connection can only fail with an end-of-stream-class error. -/
theorem not_found_terminates_connection (s : Server) (hs : handshake)
    (pre : List call) (bad : call) (post : List call)
    (hv : ¬ hs.Version < MinVersion)
    (hauth : ∀ f, s.AuthFn = some f → f hs.AuthKey = true)
    (hctx : s.ctxDone = false)
    (hpre : ∀ c ∈ pre, (s.effectiveHandler c.Endpoint).isSome)
    (hbad : s.m bad.Endpoint = none) (hnf : s.NotFoundHandler = none) :
    (Server.handle s (.ok hs) (pre ++ bad :: post)).enteredLoop = true ∧
    (Server.handle s (.ok hs) (pre ++ bad :: post)).responses.length
      = pre.length + 1 ∧
    (Server.handle s (.ok hs) (pre ++ bad :: post)).responses.getLast?
      = some errNotFound ∧
    (Server.handle s (.ok hs) (pre ++ bad :: post)).connClosed = true := by
  have hbad' : s.effectiveHandler bad.Endpoint = none := by
    simp [Server.effectiveHandler, hbad, hnf]
  have hmain : Server.handle s (.ok hs) (pre ++ bad :: post)
      = ⟨some okHandshake, s.handleLoop (pre ++ bad :: post), true, true⟩ := by
    cases hA : s.AuthFn with
    | none => simp [Server.handle, hv, hA]
    | some f => simp [Server.handle, hv, hA, hauth f hA]
  obtain ⟨ans, hans, hlen⟩ := handleLoop_not_found s pre bad post hctx hpre hbad'
  rw [hmain]
  refine ⟨rfl, ?_, ?_, rfl⟩
  · simp [hans, hlen]
  · simp [hans]

/-- Witness for C5 at a concrete input: an echo request, then a request for
the unregistered endpoint `missing`, then another echo request that is never
answered. -/
theorem not_found_terminates_connection_witness :
    (Server.handle demoServer (.ok ⟨Version, 0, ""⟩)
        [⟨"echo", [], ""⟩, ⟨"missing", [], ""⟩, ⟨"echo", [], ""⟩]).responses.length
      = 2 ∧
    (Server.handle demoServer (.ok ⟨Version, 0, ""⟩)
        [⟨"echo", [], ""⟩, ⟨"missing", [], ""⟩, ⟨"echo", [], ""⟩]).responses.getLast?
      = some errNotFound := by
  have h := not_found_terminates_connection demoServer ⟨Version, 0, ""⟩
    [⟨"echo", [], ""⟩] ⟨"missing", [], ""⟩ [⟨"echo", [], ""⟩]
    (by decide) (fun f hf => by cases hf) rfl
    (fun c hc => by
      rcases List.mem_singleton.mp hc with rfl
      rfl)
    rfl rfl
  exact ⟨h.2.1, h.2.2.1⟩

/-! ## Theorems for the client claims -/

/-- Every `Client.call` invocation records exactly one attempt event,
carrying its own result. -/
theorem call_tr_eq (env : NetEnv) (c : ClientState) (ep : String)
    (args : List Val) :
    (Client.call env c ep args).tr
      = [.attempt ep args (Client.call env c ep args).res] := by
  unfold Client.call
  cases c.conn with
  | none => rfl
  | some cid =>
    cases env.callEncode c.callCount with
    | some e => rfl
    | none =>
      cases env.callDecode c.callCount with
      | error e => rfl
      | ok cc =>
        by_cases hcc : cc.Error = "" <;> simp [hcc]

/-- Every `Client.reinit` invocation records exactly one reinit event,
carrying its own result. -/
theorem reinit_tr_eq (env : NetEnv) (c : ClientState) :
    (Client.reinit env c).tr = [.reinitEv (Client.reinit env c).err] := by
  unfold Client.reinit
  cases env.dial c.dialCount with
  | error e => rfl
  | ok cid =>
    cases env.hsEncode c.hsCount with
    | some e => rfl
    | none =>
      cases env.hsDecode c.hsCount with
      | error e => rfl
      | ok hr =>
        by_cases hhr : hr.Error = "" <;> simp [hhr]

/-- C1: when the first attempt of a call fails with a transport-classified
error (network error or the not-yet-connected sentinel), the engine runs one
reinitialization; if that fails its error is returned after the single
attempt, and if it succeeds the same request is resent exactly once — the
trace is exactly first attempt, reinit, second attempt — and the second
attempt's outcome, transport failure included, is returned with no third
attempt ever made. -/
theorem call_retry_once (env : NetEnv) (c : ClientState) (ep : String)
    (args : List Val)
    (h : shouldRetry (errOf (Client.call env c ep args).res) = true) :
    (∀ e, (Client.reinit env (Client.call env c ep args).st).err = some e →
      (Client.CallBody env c ep args).res = .error e ∧
      countAttempts (Client.CallBody env c ep args).tr = 1) ∧
    ((Client.reinit env (Client.call env c ep args).st).err = none →
      (Client.CallBody env c ep args).res
        = (Client.call env (Client.reinit env (Client.call env c ep args).st).st
            ep args).res ∧
      (Client.CallBody env c ep args).tr
        = [.attempt ep args (Client.call env c ep args).res,
           .reinitEv none,
           .attempt ep args
             (Client.call env (Client.reinit env (Client.call env c ep args).st).st
               ep args).res] ∧
      countAttempts (Client.CallBody env c ep args).tr = 2) := by
  constructor
  · intro e he
    simp only [Client.CallBody, h, if_true, he]
    refine ⟨trivial, ?_⟩
    rw [call_tr_eq, reinit_tr_eq, he]
    rfl
  · intro he
    simp only [Client.CallBody, h, if_true, he]
    refine ⟨trivial, ?_, ?_⟩
    · rw [call_tr_eq, reinit_tr_eq, he,
        call_tr_eq env (Client.reinit env (Client.call env c ep args).st).st ep args]
      rfl
    · rw [call_tr_eq, reinit_tr_eq, he,
        call_tr_eq env (Client.reinit env (Client.call env c ep args).st).st ep args]
      rfl

/-- Witness for C1 at a concrete input: both attempts fail with a network
error; the second failure is returned and exactly two attempts are made. -/
theorem call_retry_once_witness :
    shouldRetry (errOf (Client.call envRetryTwice connectedClient "x" []).res)
      = true ∧
    (Client.reinit envRetryTwice
        (Client.call envRetryTwice connectedClient "x" []).st).err = none ∧
    (Client.CallBody envRetryTwice connectedClient "x" []).res
      = .error (.netErr "connection reset") ∧
    countAttempts (Client.CallBody envRetryTwice connectedClient "x" []).tr = 2 := by
  have h := (call_retry_once envRetryTwice connectedClient "x" [] (by decide)).2
    (by decide)
  refine ⟨by decide, by decide, ?_, h.2.2⟩
  rw [h.1]
  rfl

/-- C3 counterexample: `Client.reinit` installs the new connection right
after the dial, before the handshake runs, and does not undo this on failure.
With a handshake-response decode failure (`envHsFail`), reinit returns the
error yet the client holds connection 7 — not the not-connected state the
claim requires, and not an installation performed only on full success.  And
with a handshake response whose version 1 exceeds the client's 0.4 but whose
error field is empty (`envVerHigh`), reinit succeeds — the version field is
never examined, refuting the claimed version-based failure case. -/
theorem reinit_not_atomic_counterexample :
    ((Client.reinit envHsFail freshClient).err = some .eof ∧
      (Client.reinit envHsFail freshClient).st.conn = some 7) ∧
    (Version < mkRat 1 1 ∧
      (Client.reinit envVerHigh freshClient).err = none) := by decide

/-- C3 amended: `Client.reinit` succeeds exactly when the dial, the handshake
encode, and the handshake-response decode succeed and the decoded response
carries an empty error field (its version field is never examined); each
failing stage returns exactly its own error — the dial error, the handshake
encode error, the handshake-response decode error, or the string error built
from a non-empty response error field — but the new connection is installed
as current already on dial success, before the handshake, and is kept
installed when the handshake stage fails; only a dial failure leaves the
connection field unchanged. -/
theorem reinit_characterization (env : NetEnv) (c : ClientState) :
    ((Client.reinit env c).err = none ↔
      (∃ cid, env.dial c.dialCount = .ok cid) ∧
      env.hsEncode c.hsCount = none ∧
      (∃ hr, env.hsDecode c.hsCount = .ok hr ∧ hr.Error = "")) ∧
    (∀ cid, env.dial c.dialCount = .ok cid →
      (Client.reinit env c).st.conn = some cid) ∧
    (∀ e, env.dial c.dialCount = .error e →
      (Client.reinit env c).err = some e ∧
      (Client.reinit env c).st.conn = c.conn) ∧
    (∀ e, env.hsEncode c.hsCount = some e →
      (∃ cid, env.dial c.dialCount = .ok cid) →
      (Client.reinit env c).err = some e) ∧
    (∀ e, env.hsDecode c.hsCount = .error e →
      (∃ cid, env.dial c.dialCount = .ok cid) →
      env.hsEncode c.hsCount = none →
      (Client.reinit env c).err = some e) ∧
    (∀ hr, env.hsDecode c.hsCount = .ok hr →
      (∃ cid, env.dial c.dialCount = .ok cid) →
      env.hsEncode c.hsCount = none →
      hr.Error ≠ "" →
      (Client.reinit env c).err = some (.strErr hr.Error)) := by
  unfold Client.reinit
  cases hd : env.dial c.dialCount with
  | error e => simp [hd]
  | ok cid =>
    cases he : env.hsEncode c.hsCount with
    | some e => simp [hd, he]
    | none =>
      cases hh : env.hsDecode c.hsCount with
      | error e => simp [hd, he, hh]
      | ok hr =>
        by_cases hhr : hr.Error = "" <;> simp [hd, he, hh, hhr]

/-- Witness for C3 (amended) at a concrete input: under `envHsFail` the
handshake-response decode fails with end-of-stream, reinit returns exactly
that error, yet connection 7 is installed; under `envVerHigh` the response's
empty error field makes reinit succeed despite the higher server version. -/
theorem reinit_characterization_witness :
    envHsFail.dial 0 = .ok 7 ∧
    envHsFail.hsDecode 0 = .error .eof ∧
    (Client.reinit envHsFail freshClient).st.conn = some 7 ∧
    (Client.reinit envHsFail freshClient).err = some .eof ∧
    (Client.reinit envVerHigh freshClient).err = none := by
  have h := reinit_characterization envHsFail freshClient
  have h2 := reinit_characterization envVerHigh freshClient
  exact ⟨rfl, rfl, h.2.1 7 rfl, h.2.2.2.2.1 .eof rfl ⟨7, rfl⟩ rfl,
    h2.1.mpr ⟨⟨7, rfl⟩, rfl, ⟨⟨mkRat 1 1, ""⟩, rfl, rfl⟩⟩⟩

/-- C4: a call whose decoded response frame carries a non-empty error field
returns exactly that message as its error and no result values; the error is
classified non-retryable, so the engine performs no reinitialization and no
resend — the trace is a single attempt. -/
theorem app_error_not_retried (env : NetEnv) (c : ClientState) (ep : String)
    (args : List Val) (cc : call)
    (hconn : c.conn.isSome)
    (henc : env.callEncode c.callCount = none)
    (hdec : env.callDecode c.callCount = .ok cc)
    (herr : cc.Error ≠ "") :
    (Client.CallBody env c ep args).res = .error (.strErr cc.Error) ∧
    (Client.CallBody env c ep args).tr
      = [.attempt ep args (.error (.strErr cc.Error))] ∧
    shouldRetryErr (.strErr cc.Error) = false := by
  obtain ⟨cid, hcid⟩ := Option.isSome_iff_exists.mp hconn
  have hcall : Client.call env c ep args
      = ⟨{ c with callCount := c.callCount + 1 }, .error (.strErr cc.Error),
         [.attempt ep args (.error (.strErr cc.Error))]⟩ := by
    unfold Client.call
    rw [hcid, henc, hdec]
    simp [herr]
  refine ⟨?_, ?_, rfl⟩ <;>
    simp [Client.CallBody, hcall, shouldRetry, errOf, shouldRetryErr]

/-- Witness for C4 at a concrete input: the deterministic handler error is
returned verbatim from a single attempt. -/
theorem app_error_not_retried_witness :
    connectedClient.conn.isSome ∧
    envAppErr.callDecode 0 = .ok ⟨"", [], "err"⟩ ∧
    (Client.CallBody envAppErr connectedClient "x" []).res
      = .error (.strErr "err") ∧
    countAttempts (Client.CallBody envAppErr connectedClient "x" []).tr = 1 := by
  have h := app_error_not_retried envAppErr connectedClient "x" [] ⟨"", [], "err"⟩
    rfl rfl rfl (by decide)
  refine ⟨rfl, rfl, h.1, ?_⟩
  rw [h.2.1]
  rfl

/-- Helper for C10: from a state with no connection, when the redial, the
handshake, and the request exchange all succeed, the call body recovers: one
not-connected attempt, one successful reinit, one successful resend. -/
theorem callBody_reconnect (env : NetEnv) (d : ClientState) (ep : String)
    (args : List Val) (cid : Nat) (hr : handshakeResponse) (cc : call)
    (hconn : d.conn = none)
    (hd : env.dial d.dialCount = .ok cid)
    (he : env.hsEncode d.hsCount = none)
    (hh : env.hsDecode d.hsCount = .ok hr)
    (hhe : hr.Error = "")
    (hce : env.callEncode d.callCount = none)
    (hcd : env.callDecode d.callCount = .ok cc)
    (hcce : cc.Error = "") :
    (Client.CallBody env d ep args).res = .ok cc.Args ∧
    (Client.CallBody env d ep args).tr
      = [.attempt ep args (.error .errRetry), .reinitEv none,
         .attempt ep args (.ok cc.Args)] := by
  have hcall1 : Client.call env d ep args
      = ⟨d, .error .errRetry, [.attempt ep args (.error .errRetry)]⟩ := by
    unfold Client.call
    rw [hconn]
  have hrein : Client.reinit env d
      = ⟨⟨some cid, d.dialCount + 1, d.hsCount + 1, d.callCount⟩, none,
         [.reinitEv none]⟩ := by
    unfold Client.reinit
    rw [hd, he, hh]
    simp [hhe]
  have hcall2 : Client.call env
      (⟨some cid, d.dialCount + 1, d.hsCount + 1, d.callCount⟩ : ClientState)
      ep args
      = ⟨⟨some cid, d.dialCount + 1, d.hsCount + 1, d.callCount + 1⟩,
         .ok cc.Args, [.attempt ep args (.ok cc.Args)]⟩ := by
    unfold Client.call
    simp only [hce, hcd]
    simp [hcce]
  constructor <;>
    simp [Client.CallBody, hcall1, hrein, hcall2, shouldRetry, errOf,
      shouldRetryErr]

/-- C10: `Client.Close` sets the connection to absent and is idempotent when
it already is; a subsequent call finds no connection, which is classified
retryable, so the engine reinitializes and — whenever the redial, handshake,
and exchange succeed — completes normally: the trace is the not-connected
attempt, a successful reinit, and the successful resend. -/
theorem close_then_call_recovers (env : NetEnv) (c : ClientState) (ep : String)
    (args : List Val) (cid : Nat) (hr : handshakeResponse) (cc : call)
    (hd : env.dial (Client.Close c).1.dialCount = .ok cid)
    (he : env.hsEncode (Client.Close c).1.hsCount = none)
    (hh : env.hsDecode (Client.Close c).1.hsCount = .ok hr)
    (hhe : hr.Error = "")
    (hce : env.callEncode (Client.Close c).1.callCount = none)
    (hcd : env.callDecode (Client.Close c).1.callCount = .ok cc)
    (hcce : cc.Error = "") :
    (Client.Close c).1.conn = none ∧
    Client.Close (Client.Close c).1 = ((Client.Close c).1, none) ∧
    (Client.CallBody env (Client.Close c).1 ep args).res = .ok cc.Args ∧
    (Client.CallBody env (Client.Close c).1 ep args).tr
      = [.attempt ep args (.error .errRetry), .reinitEv none,
         .attempt ep args (.ok cc.Args)] := by
  have hclosed : ∀ d : ClientState, d.conn = none → Client.Close d = (d, none) := by
    intro d hdc
    unfold Client.Close
    rw [hdc]
  have hnone : (Client.Close c).1.conn = none := by
    unfold Client.Close
    cases hc : c.conn with
    | none => simpa using hc
    | some cid2 => rfl
  obtain ⟨h1, h2⟩ := callBody_reconnect env (Client.Close c).1 ep args cid hr cc
    hnone hd he hh hhe hce hcd hcce
  exact ⟨hnone, hclosed _ hnone, h1, h2⟩

/-- Witness for C10 at a concrete input: closing `connectedClient` and
calling again reconnects and returns the value 5. -/
theorem close_then_call_recovers_witness :
    (Client.Close connectedClient).1.conn = none ∧
    (Client.CallBody envRecover (Client.Close connectedClient).1 "x" []).res
      = .ok [Val.vint 5] := by
  have h := close_then_call_recovers envRecover connectedClient "x" [] 9
    ⟨Version, ""⟩ ⟨"", [Val.vint 5], ""⟩ rfl rfl rfl rfl rfl rfl rfl
  exact ⟨h.1, h.2.2.1⟩

/-- Lengths of the batch loop's result slices equal the argument-set count,
whatever the individual call outcomes are. -/
theorem batchLoop_length (env : NetEnv) (c : ClientState) (ep : String)
    (allArgs : List (List Val)) :
    (Client.batchLoop env c ep allArgs).outs.length = allArgs.length ∧
    (Client.batchLoop env c ep allArgs).errs.length = allArgs.length := by
  induction allArgs generalizing c with
  | nil => exact ⟨rfl, rfl⟩
  | cons a rest ih =>
    simpa [Client.batchLoop] using
      ih (Client.CallBody env c ep a).st

/-- Entry i of the batch loop's slices is the outcome of the one call made on
argument set i, from the state reached after the first i calls. -/
theorem batchLoop_getD (env : NetEnv) (c : ClientState) (ep : String)
    (allArgs : List (List Val)) (i : Nat) (hi : i < allArgs.length) :
    (Client.batchLoop env c ep allArgs).outs.getD i []
      = outOf (Client.CallBody env
          (Client.batchLoop env c ep (allArgs.take i)).st ep
          (allArgs.getD i [])).res ∧
    (Client.batchLoop env c ep allArgs).errs.getD i none
      = errOf (Client.CallBody env
          (Client.batchLoop env c ep (allArgs.take i)).st ep
          (allArgs.getD i [])).res := by
  induction allArgs generalizing c i with
  | nil => cases hi
  | cons a rest ih =>
    cases i with
    | zero => exact ⟨rfl, rfl⟩
    | succ j =>
      have hj : j < rest.length := Nat.lt_of_succ_lt_succ hi
      simpa [Client.batchLoop] using
        ih (Client.CallBody env c ep a).st j hj

/-- C9: absent cancellation, `Client.BatchCall` returns result and error
slices both of length n, whose entry i is the outcome of the single call made
on argument set i from the state the previous i calls produced — so calls run
in list order and an error at one index never stops the remaining calls (the
slices stay fully populated); when the outer cancellation signal fires after
k < n calls, it returns the cancellation error and the remaining argument
sets are abandoned: the trace holds only the first k calls' events. -/
theorem batch_call_spec (env : NetEnv) (c : ClientState) (ep : String)
    (allArgs : List (List Val)) :
    (Client.BatchCall env c ep allArgs none).1.length = allArgs.length ∧
    (Client.BatchCall env c ep allArgs none).2.1.length = allArgs.length ∧
    (∀ i, i < allArgs.length →
      (Client.BatchCall env c ep allArgs none).1.getD i []
        = outOf (Client.CallBody env
            (Client.batchLoop env c ep (allArgs.take i)).st ep
            (allArgs.getD i [])).res ∧
      (Client.BatchCall env c ep allArgs none).2.1.getD i none
        = errOf (Client.CallBody env
            (Client.batchLoop env c ep (allArgs.take i)).st ep
            (allArgs.getD i [])).res) ∧
    (∀ k, k < allArgs.length →
      Client.BatchCall env c ep allArgs (some k)
        = ([], [some .ctxCanceled],
           (Client.batchLoop env c ep (allArgs.take k)).tr)) := by
  refine ⟨(batchLoop_length env c ep allArgs).1,
    (batchLoop_length env c ep allArgs).2,
    fun i hi => batchLoop_getD env c ep allArgs i hi,
    fun k hk => ?_⟩
  simp [Client.BatchCall, hk]

/-- Witness for C9 at a concrete input: three argument sets; the middle call
fails with the application error, the batch still runs all three. -/
theorem batch_call_spec_witness :
    (1 : Nat) < 3 ∧
    (Client.BatchCall envBatch connectedClient "x"
        [[Val.vint 10], [Val.vint 20], [Val.vint 30]] none).1.length = 3 ∧
    (Client.BatchCall envBatch connectedClient "x"
        [[Val.vint 10], [Val.vint 20], [Val.vint 30]] none).2.1.getD 1 none
      = some (.strErr "err") ∧
    (Client.BatchCall envBatch connectedClient "x"
        [[Val.vint 10], [Val.vint 20], [Val.vint 30]] none).1.getD 2 []
      = [Val.vint 3] := by
  have h := batch_call_spec envBatch connectedClient "x"
    [[Val.vint 10], [Val.vint 20], [Val.vint 30]]
  refine ⟨by decide, h.1, ?_, ?_⟩
  · rw [(h.2.2.1 1 (by decide)).2]
    rfl
  · rw [(h.2.2.1 2 (by decide)).1]
    rfl

end Msgprpc
